import Mathlib

/-!
Shallow embedding, in Lean 4, of the PCG-XSH-RR generator of `src/rng.js`.

Modelling conventions:
* JavaScript `BigInt` values held by the generator are nonnegative in every
  reachable configuration of the claims, so they are modelled as `ℕ` with
  arbitrary precision, exactly as `BigInt` behaves on nonnegative values.
  Wraparound happens only where the source applies it (`#pad_or_truncate`).
* JavaScript `Number` arguments and results of `randint` are modelled as `ℤ`
  (they are integers in every claim); `%` on Numbers is the truncated
  remainder `Int.tmod`, and `x % 0`, which is `NaN` in JavaScript, is
  modelled by `Option` (`none` = `NaN`).
* JavaScript `Number` values of `rand` are modelled as exact rationals `ℚ`.
  `2 ** -32` is the exact rational `(2 ^ 32)⁻¹` (a power of two, exactly
  representable as a double), and `call() * 2 ** -32` is exact IEEE-754
  arithmetic, so the no-bound branch of `rand` is bit-faithful; the
  two-bound branch involves genuine rounding and is treated separately.
* Arrays are Lean lists.  `Array.prototype` operations that can produce
  `undefined` (`splice(i,1)[0]`, `shift()`, `pop()`) yield `Option` values,
  so arrays whose elements may be `undefined` are `List (Option α)`.
* A method that can `throw` is embedded in `Except JsErr`; methods of the
  source with no `throw` statement and no failing primitive are embedded as
  total functions (they cannot fail).
-/

/-- The `RNG` class of `src/rng.js` (lines 10-15): a 64-bit LCG state together
with the fixed multiplier and increment, all JavaScript `BigInt`s. -/
structure RNG where
  state : ℕ
  multiplier : ℕ
  increment : ℕ
deriving DecidableEq

/-- A generator built by the default constructor
`new RNG()` (line 11): `state = 0x4d595df4d0f33173n`,
`multiplier = 6364136223846793005n`, `increment = 1442695040888963407n`. -/
def rng0 : RNG :=
  { state := 0x4d595df4d0f33173
    multiplier := 6364136223846793005
    increment := 1442695040888963407 }

/-- The private helper `#pad_or_truncate(x, bits = 64)` (lines 19-26).  It
renders `x` in binary and, when the string is longer than `bits`, keeps the
last `bits` binary digits; otherwise it zero-pads, leaving the value
unchanged.  On a nonnegative `BigInt` this is exactly: keep `x` when
`x < 2 ^ bits`, else `x % 2 ^ bits`. -/
def RNG.pad_or_truncate (x bits : ℕ) : ℕ :=
  if x < 2 ^ bits then x else x % 2 ^ bits

/-- The private helper `#rotr32(x, r)` (lines 28-30):
`(x >> r | x << (-r & 31n)) & 4294967295n`.  For a nonnegative `BigInt` `r`,
the two's-complement expression `-r & 31n` equals `(-r) mod 32`, that is
`(32 - r % 32) % 32`. -/
def RNG.rotr32 (x r : ℕ) : ℕ :=
  ((x >>> r) ||| (x <<< ((32 - r % 32) % 32))) &&& 4294967295

/-- The step function `call()` (lines 32-38).  It reads the pre-advance state
`x`, advances `state` to the truncated `state * multiplier + increment`,
computes the rotation `count = x >> 59n`, the xorshifted word
`((x ^ (x >> 18n)) >> 27n) & 4294967295n`, and returns its right rotation.
The returned pair is (returned `Number`, generator after the call). -/
def RNG.call (g : RNG) : ℕ × RNG :=
  let x := g.state
  let state' := RNG.pad_or_truncate (g.state * g.multiplier + g.increment) 64
  let count := x >>> 59
  let y := ((x ^^^ (x >>> 18)) >>> 27) &&& 4294967295
  (RNG.rotr32 y count, { g with state := state' })

/-- The re-seeding method `init(seed)` (lines 40-43): it assigns
`state = BigInt(seed) + this.increment` (a plain `BigInt` addition, with no
wraparound of its own) and then performs one `this.call()` whose result is
discarded. -/
def RNG.init (g : RNG) (seed : ℕ) : RNG :=
  let g1 : RNG := { g with state := seed + g.increment }
  (g1.call).2

/-- Truthiness of an optional integer argument: `undefined` and `0` are falsy,
every other integer is truthy.  (`NaN`, also falsy, does not arise for the
integer arguments modelled here.) -/
def truthyInt : Option ℤ → Bool
  | none => false
  | some v => v != 0

/-- Truthiness of an optional rational argument, as for `truthyInt`. -/
def truthyRat : Option ℚ → Bool
  | none => false
  | some v => v != 0

/-- The JavaScript `%` on integer `Number`s: the truncated remainder (the sign
follows the dividend), except that a zero divisor yields `NaN`, modelled as
`none`. -/
def jsRem (a b : ℤ) : Option ℤ :=
  if b = 0 then none else some (Int.tmod a b)

/-- The method `randint(min, max)` (lines 47-55).  Arguments are optional
(`none` = `undefined`); the result is the returned `Number` (`none` = `NaN`)
together with the generator after the call.  Every branch of the source
evaluates `this.call()` exactly once, so the call is hoisted; the
branch conditions `if (max)` / `else if (min)` are JavaScript truthiness
tests on the arguments, which do not touch the generator. -/
def RNG.randint (g : RNG) (mi ma : Option ℤ) : Option ℤ × RNG :=
  let o : ℤ := (g.call).1
  let g' := (g.call).2
  if truthyInt ma then
    (match mi, ma with
      | some mn, some mx => (jsRem o (mx - mn)).map (fun v => v + mn)
      | _, _ => none, g')
  else if truthyInt mi then
    (match mi with
      | some mn =>
          if 0 < mn then jsRem o mn else (jsRem o (-mn)).map (fun v => v + mn)
      | none => none, g')
  else (some o, g')

/-- The method `rand(min, max)` (lines 60-68), with the same three-branch
shape as `randint`.  The base value `this.call() * (2 ** -32)` is the exact
rational `out / 2 ^ 32`; an absent bound used in arithmetic would give `NaN`
(`none`). -/
def RNG.rand (g : RNG) (mi ma : Option ℚ) : Option ℚ × RNG :=
  let g' := (g.call).2
  let base : ℚ := (((g.call).1 : ℕ) : ℚ) * ((2 : ℚ) ^ (32 : ℕ))⁻¹
  if truthyRat ma then
    (match mi, ma with
      | some mn, some mx => some (base * (mx - mn) + mn)
      | _, _ => none, g')
  else if truthyRat mi then
    (mi.map (fun mn => base * mn), g')
  else (some base, g')

/-- The start index used by `Array.prototype.splice(k, 1)`: a negative `k`
counts from the end (clamped at `0`), and a too-large `k` is clamped to the
length. -/
def spliceStart (len : ℕ) (k : ℤ) : ℕ :=
  if k < 0 then ((len : ℤ) + k).toNat else min k.toNat len

/-- The expression `l.splice(k, 1)[0]` together with the array left behind:
the removed element (`none` = `undefined` when nothing is removed, i.e. when
the start index is past the end) and the remaining list. -/
def spliceOne (l : List α) (k : ℤ) : Option α × List α :=
  let start := spliceStart l.length k
  (l[start]?, l.take start ++ l.drop (start + 1))

/-- The loop of `randperm` (lines 82-84):
`while (oldArray.length > 1) newArray.push(oldArray.splice(this.randint(oldArray.length), 1)[0])`.
The loop removes one element per iteration, so fuel equal to the initial
length suffices; the `none` arm of the match mirrors a `NaN` index from
`randint`, which cannot occur because the bound `oldArray.length` is at
least `2` inside the loop.  Result: (`newArray`, remaining `oldArray`,
generator). -/
def RNG.randpermGo (fuel : ℕ) (g : RNG) (oldArray : List α)
    (newArray : List (Option α)) : List (Option α) × List α × RNG :=
  match fuel with
  | 0 => (newArray, oldArray, g)
  | fuel + 1 =>
    if oldArray.length > 1 then
      match g.randint (some (oldArray.length : ℤ)) none with
      | (some k, g') =>
          let (removed, rest) := spliceOne oldArray k
          RNG.randpermGo fuel g' rest (newArray ++ [removed])
      | (none, g') => (newArray, oldArray, g')
    else (newArray, oldArray, g)

/-- The method `randperm(array)` (lines 74-87) on an `Array` argument (the
`instanceof Array` branch).  `oldArray = [...array]` is a copy, and every
mutating operation (`splice`, `shift`) targets that copy, so the value held
by the caller's `array` after the call — returned as the middle component —
is the value it held before.  After the loop, `newArray.push(oldArray.shift())`
appends the head of the remainder, which is `undefined` when the remainder is
empty.  Result: (returned new array, caller's array after the call,
generator). -/
def RNG.randpermArr (g : RNG) (array : List α) :
    List (Option α) × List α × RNG :=
  let oldArray := array
  let (newArray, rest, g') := RNG.randpermGo oldArray.length g oldArray []
  (newArray ++ [rest.head?], array, g')

/-- The method `randperm(array)` (lines 74-87) on a `Number` argument `n`:
`oldArray = Array.from(Array(n), (_, i) => i)` is `[0, 1, ..., n-1]`, and the
rest of the body is the same as for an array argument. -/
def RNG.randpermNum (g : RNG) (n : ℕ) : List (Option ℕ) × RNG :=
  let oldArray := List.range n
  let (newArray, rest, g') := RNG.randpermGo oldArray.length g oldArray []
  (newArray ++ [rest.head?], g')

/-- The first loop of `permute` (lines 92-94):
`while (array.length > 1) oldArray.push(array.splice(this.randint(array.length), 1)[0])`,
embedded exactly like `RNG.randpermGo` but with the roles of the two arrays
as in the source: elements are spliced out of the caller's `array` and pushed
onto the local `oldArray`.  Result: (remaining `array`, `oldArray`,
generator). -/
def RNG.permuteGo (fuel : ℕ) (g : RNG) (array : List α)
    (oldArray : List (Option α)) : List α × List (Option α) × RNG :=
  match fuel with
  | 0 => (array, oldArray, g)
  | fuel + 1 =>
    if array.length > 1 then
      match g.randint (some (array.length : ℤ)) none with
      | (some k, g') =>
          let (removed, rest) := spliceOne array k
          RNG.permuteGo fuel g' rest (oldArray ++ [removed])
      | (none, g') => (array, oldArray, g')
    else (array, oldArray, g)

/-- The second loop of `permute` (lines 95-97):
`while (oldArray.length > 0) array.unshift(oldArray.pop())`.  `pop` removes
and returns the last element (the guard makes it defined), `unshift` prepends
it.  Fuel equal to `oldArray.length` suffices. -/
def unshiftPopLoop (fuel : ℕ) (array oldArray : List (Option α)) :
    List (Option α) :=
  match fuel with
  | 0 => array
  | fuel + 1 =>
    if oldArray.length > 0 then
      match oldArray.getLast? with
      | some v => unshiftPopLoop fuel (v :: array) oldArray.dropLast
      | none => array
    else array

/-- The method `permute(array)` (lines 90-98): it mutates the caller's array
in place and returns `undefined`, so the embedding returns (caller's array
after the call, generator).  After the first loop the caller's array holds
the remainder (`rest`); the second loop then prepends the popped elements of
`oldArray`.  The surviving `rest` elements are defined values of the original
array, lifted by `some` into the `undefined`-aware element type. -/
def RNG.permute (g : RNG) (array : List α) : List (Option α) × RNG :=
  let (rest, oldArray, g') := RNG.permuteGo array.length g array []
  (unshiftPopLoop oldArray.length (rest.map some) oldArray, g')

/-- The JavaScript exceptions the `choose` method can raise:
* `rangeError` — the explicit `throw RangeError(...)` of line 106;
* `typeError` — `[].reduce((x, e) => x + e)` on line 108: `reduce` with no
  initial value throws `TypeError` on an empty array;
* `referenceError` — line 112 reads the identifier `p`, which is declared
  nowhere in the module, so evaluating the first `map` callback throws
  `ReferenceError: p is not defined`. -/
inductive JsErr where
  | rangeError
  | typeError
  | referenceError
deriving DecidableEq

/-- The body of `choose` from line 108 on, once `items` has been resolved
(indices are `Sum.inr`, elements of a caller-supplied array `Sum.inl`).
For a non-empty probability array, `reduce` folds `x + e` from the first
element (line 108), one `rand(normalizer)` draw is consumed (line 110), and
then the `map` callback of line 112 dereferences the undeclared identifier
`p` and throws `ReferenceError`; the generator keeps the advanced state the
`rand` call gave it.  For an empty probability array the `reduce` of
line 108 itself throws `TypeError` before any draw. -/
def RNG.chooseCore (g : RNG) (probabilities : List ℚ)
    (items : List (α ⊕ ℕ)) : Except JsErr (Option (α ⊕ ℕ)) × RNG :=
  match probabilities with
  | [] => (Except.error JsErr.typeError, g)
  | p0 :: ptl =>
    let normalizer := ptl.foldl (fun x e => x + e) p0
    let g' := (g.rand (some normalizer) none).2
    let _ := items
    (Except.error JsErr.referenceError, g')

/-- The method `choose(probabilities, array)` (lines 101-113).  When no items
array is given, `items` is the index list `probabilities.map((_, i) => i)`
(line 104); when one is given with a different length, line 106 throws
`RangeError` before the `reduce` and before any draw, so the generator is
returned untouched; otherwise the body proceeds as in `RNG.chooseCore`. -/
def RNG.choose (g : RNG) (probabilities : List ℚ)
    (array : Option (List α)) : Except JsErr (Option (α ⊕ ℕ)) × RNG :=
  match array with
  | none =>
      RNG.chooseCore g probabilities
        ((List.range probabilities.length).map Sum.inr)
  | some arr =>
      if probabilities.length ≠ arr.length then
        (Except.error JsErr.rangeError, g)
      else
        RNG.chooseCore g probabilities (arr.map Sum.inl)

/-- Round to the nearest integer, ties to even, of an exact rational. -/
def roundHalfEven (y : ℚ) : ℤ :=
  if y - ⌊y⌋ < 1 / 2 then ⌊y⌋
  else if 1 / 2 < y - ⌊y⌋ then ⌊y⌋ + 1
  else if ⌊y⌋ % 2 = 0 then ⌊y⌋ else ⌊y⌋ + 1

/-- IEEE-754 binary64 rounding — round to nearest, ties to even — as a map on
exact rationals (every finite double is the rational `m * 2 ^ k` with
`|m| < 2 ^ 53`, and `roundDouble` is the identity exactly on those values).
With `e` the floor base-2 logarithm of `|x|`, a normal value (`e ≥ -1022`)
is rounded to the quantum `2 ^ (e - 52)` and a subnormal one to the fixed
quantum `2 ^ -1074`; a result at or above `2 ^ 1024` overflows to Infinity,
represented here by the out-of-range sentinel `2 ^ 1024` (no value in this
development reaches that branch). -/
def roundDouble (x : ℚ) : ℚ :=
  if x = 0 then 0
  else
    let e : ℤ := Int.log 2 |x|
    let scale : ℤ := if e < -1022 then 1074 else 52 - e
    let r : ℚ := (roundHalfEven (|x| * (2 : ℚ) ^ scale) : ℚ) * (2 : ℚ) ^ (-scale)
    let r2 : ℚ := if r < (2 : ℚ) ^ (1024 : ℤ) then r else (2 : ℚ) ^ (1024 : ℤ)
    if x < 0 then -r2 else r2

/-- The method `rand(min, max)` (lines 60-68) under faithful IEEE-754 binary64
arithmetic: each JavaScript `Number` operation of
`this.call()*(2**-32)*(max - min) + min` rounds its exact rational result
with `roundDouble`, in evaluation order — the parenthesized difference
first, then the two left-associated multiplications, then the addition.
`RNG.rand` above idealizes the same source lines with exact rational
arithmetic; the two agree wherever no rounding occurs (in particular on the
no-bound branch, whose value `k * 2 ^ -32` with `k < 2 ^ 32` is exactly
representable), and this version is the bit-faithful one where real
rounding occurs, which is what claim C5 turns on. -/
def RNG.randRounded (g : RNG) (mi ma : Option ℚ) : Option ℚ × RNG :=
  let g' := (g.call).2
  let base : ℚ := roundDouble ((((g.call).1 : ℕ) : ℚ) * ((2 : ℚ) ^ (32 : ℕ))⁻¹)
  if truthyRat ma then
    (match mi, ma with
      | some mn, some mx =>
          some (roundDouble (roundDouble (base * roundDouble (mx - mn)) + mn))
      | _, _ => none, g')
  else if truthyRat mi then
    (mi.map (fun mn => roundDouble (base * mn)), g')
  else (some base, g')

/-- A generator two steps along the default orbit (the state `rng0` reaches
after two calls); its next draw is `3418632178`, which exceeds `2 ^ 31`. -/
def gBig : RNG :=
  { state := 458840393324832221
    multiplier := 6364136223846793005
    increment := 1442695040888963407 }

/-! Helper lemmas shared by the claim theorems. -/

/-- Decidable equality of `Except` results, used to evaluate the embedded
`choose` on concrete inputs. -/
instance {ε α : Type} [DecidableEq ε] [DecidableEq α] :
    DecidableEq (Except ε α) := fun x y =>
  match x, y with
  | .error a, .error b => decidable_of_iff (a = b) (by simp)
  | .error _, .ok _ => Decidable.isFalse (by simp)
  | .ok _, .error _ => Decidable.isFalse (by simp)
  | .ok a, .ok b => decidable_of_iff (a = b) (by simp)

/-- Masking with `4294967295n` is reduction modulo `2 ^ 32`. -/
theorem and_mask32 (n : ℕ) : n &&& 4294967295 = n % 2 ^ 32 := by
  have h : (4294967295 : ℕ) = 2 ^ 32 - 1 := by norm_num
  rw [h, Nat.and_pow_two_sub_one_eq_mod]

/-- The padding helper is reduction modulo `2 ^ bits`. -/
theorem pad_or_truncate_mod (x bits : ℕ) :
    RNG.pad_or_truncate x bits = x % 2 ^ bits := by
  unfold RNG.pad_or_truncate
  split
  · exact (Nat.mod_eq_of_lt (by assumption)).symm
  · rfl

/-- A state below `2 ^ 64` yields a rotation count `x >> 59n` below `32`. -/
theorem count_lt_32 (x : ℕ) (hx : x < 2 ^ 64) : x >>> 59 < 32 := by
  rw [Nat.shiftRight_eq_div_pow]
  have h32 : (32 : ℕ) * 2 ^ 59 = 2 ^ 64 := by norm_num
  exact (Nat.div_lt_iff_lt_mul (by positivity)).mpr (by omega)

/-- Evaluation of `randint` at a single positive integer bound `n`, the shape
used by the permutation loops: one draw is consumed and the value is
`call() % n`, which as the remainder of a nonnegative dividend by a positive
divisor equals the mathematical `call() mod n`, a natural number below `n`. -/
theorem randint_posNat (g : RNG) (n : ℕ) (h : 0 < n) :
    g.randint (some (n : ℤ)) none =
      (some (((g.call).1 % n : ℕ) : ℤ), (g.call).2) := by
  have hzn : (n : ℤ) ≠ 0 := by exact_mod_cast Nat.pos_iff_ne_zero.mp h
  have hpos : (0 : ℤ) < (n : ℤ) := by exact_mod_cast h
  have htm : Int.tmod ((g.call).1 : ℤ) (n : ℤ) = (((g.call).1 % n : ℕ) : ℤ) := by
    rw [Int.tmod_eq_emod (Int.natCast_nonneg _) (le_of_lt hpos)]
    exact_mod_cast (Int.natCast_mod (g.call).1 n).symm
  simp [RNG.randint, truthyInt, jsRem, hzn, hpos, htm]

/-- Evaluation of `roundHalfEven` when the value sits strictly below the
halfway point above `n`. -/
theorem roundHalfEven_eq_of_lt (y : ℚ) (n : ℤ) (h1 : (n : ℚ) ≤ y)
    (h2 : y < (n : ℚ) + 1 / 2) : roundHalfEven y = n := by
  have hf : ⌊y⌋ = n := Int.floor_eq_iff.mpr ⟨h1, by linarith⟩
  rw [roundHalfEven, hf, if_pos (by linarith)]

/-- Evaluation of `roundHalfEven` when the value sits strictly above the
halfway point above `n` (and below `n + 1`): it rounds up. -/
theorem roundHalfEven_eq_of_gt (y : ℚ) (n : ℤ) (h1 : (n : ℚ) + 1 / 2 < y)
    (h2 : y < (n : ℚ) + 1) : roundHalfEven y = n + 1 := by
  have hf : ⌊y⌋ = n := Int.floor_eq_iff.mpr ⟨by linarith, h2⟩
  rw [roundHalfEven, hf, if_neg (by linarith), if_pos (by linarith)]

/-- Evaluation of `roundDouble` on a positive value in the normal,
non-overflowing range: with `e` pinned by `2 ^ e ≤ x < 2 ^ (e + 1)` and the
scaled significand rounding to `n`, the result is `n * 2 ^ (e - 52)`. -/
theorem roundDouble_eval_pos (x : ℚ) (e n : ℤ) (hx : 0 < x)
    (he1 : ((2 : ℕ) : ℚ) ^ e ≤ x) (he2 : x < ((2 : ℕ) : ℚ) ^ (e + 1))
    (hee : -1022 ≤ e)
    (hn : roundHalfEven (x * (2 : ℚ) ^ (52 - e)) = n)
    (hov : (n : ℚ) * (2 : ℚ) ^ (-(52 - e)) < (2 : ℚ) ^ (1024 : ℤ)) :
    roundDouble x = (n : ℚ) * (2 : ℚ) ^ (-(52 - e)) := by
  have hlog : Int.log 2 x = e := by
    have ha := (Int.zpow_le_iff_le_log (by norm_num) hx).mp he1
    have hb := (Int.lt_zpow_iff_log_lt (by norm_num) hx).mp he2
    omega
  simp only [roundDouble]
  rw [if_neg (ne_of_gt hx), abs_of_pos hx, hlog,
    if_neg (show ¬ e < -1022 by omega), hn, if_pos hov,
    if_neg (not_lt.mpr (le_of_lt hx))]

/-- Two-bound reduction of `randRounded`: for a truthy `max`, one draw is
consumed and the returned value is the rounded evaluation of
`call() * 2 ^ -32 * (max - min) + min`. -/
theorem randRounded_two_bounds (g : RNG) (mn mx : ℚ) (hmx : mx ≠ 0) :
    g.randRounded (some mn) (some mx) =
      (some (roundDouble (roundDouble
          (roundDouble ((((g.call).1 : ℕ) : ℚ) * ((2 : ℚ) ^ (32 : ℕ))⁻¹) *
            roundDouble (mx - mn)) + mn)),
        (g.call).2) := by
  simp [RNG.randRounded, truthyRat, hmx]

/-- Whatever its branch, a `rand` call leaves the generator exactly one step
advanced: its second component is always the post-`call` generator. -/
theorem rand_snd (g : RNG) (mi ma : Option ℚ) : (g.rand mi ma).2 = (g.call).2 := by
  simp only [RNG.rand]
  split
  · rfl
  · split <;> rfl

/-- On a non-empty probability array, `chooseCore` consumes the one `rand`
draw of line 110 and then throws the `ReferenceError` of line 112. -/
theorem chooseCore_nonempty {α : Type} (g : RNG) (p0 : ℚ) (ptl : List ℚ)
    (items : List (α ⊕ ℕ)) :
    g.chooseCore (p0 :: ptl) items =
      (Except.error JsErr.referenceError, (g.call).2) := by
  show (Except.error JsErr.referenceError,
    (g.rand (some (ptl.foldl (fun x e => x + e) p0)) none).2) = _
  rw [rand_snd]

/-! Claim theorems. -/

/-- C1: for a generator whose state, multiplier and increment lie in
`[0, 2 ^ 64)`, one `call()` returns
`rotate-right(((x xor (x >> 18)) >> 27) mod 2 ^ 32, x >> 59)` within a fixed
32-bit width — that is,
`(y >> count | y << ((32 - count) mod 32)) mod 2 ^ 32` with `y` the truncated
xorshift of the pre-advance state `x` and `count = x >> 59` — the returned
value lies in `[0, 2 ^ 32)`, and the only side effect is the state update
`state = (x * multiplier + increment) mod 2 ^ 64`. -/
theorem C1_call_step_spec (g : RNG) (hs : g.state < 2 ^ 64)
    (hm : g.multiplier < 2 ^ 64) (hi : g.increment < 2 ^ 64) :
    (g.call).1 =
      (((((g.state ^^^ (g.state >>> 18)) >>> 27) % 2 ^ 32) >>> (g.state >>> 59)) |||
        ((((g.state ^^^ (g.state >>> 18)) >>> 27) % 2 ^ 32) <<<
          ((32 - (g.state >>> 59)) % 32))) % 2 ^ 32 ∧
    (g.call).1 < 2 ^ 32 ∧
    (g.call).2 = { g with state := (g.state * g.multiplier + g.increment) % 2 ^ 64 } := by
  have hc : g.state >>> 59 < 32 := count_lt_32 g.state hs
  refine ⟨?_, ?_, ?_⟩
  · show RNG.rotr32 (((g.state ^^^ (g.state >>> 18)) >>> 27) &&& 4294967295)
      (g.state >>> 59) = _
    rw [RNG.rotr32, Nat.mod_eq_of_lt hc]
    simp only [and_mask32]
  · show (RNG.rotr32 (((g.state ^^^ (g.state >>> 18)) >>> 27) &&& 4294967295)
      (g.state >>> 59)) < 2 ^ 32
    rw [RNG.rotr32]
    exact lt_of_le_of_lt Nat.and_le_right (by norm_num)
  · show ({ g with
        state := RNG.pad_or_truncate (g.state * g.multiplier + g.increment) 64 } : RNG) = _
    rw [pad_or_truncate_mod]

/-- C1 witness: the default-constructed generator satisfies the hypotheses,
and its first output is a 32-bit value. -/
theorem C1_witness :
    (rng0.state < 2 ^ 64 ∧ rng0.multiplier < 2 ^ 64 ∧ rng0.increment < 2 ^ 64) ∧
    (rng0.call).1 < 2 ^ 32 :=
  ⟨⟨by decide, by decide, by decide⟩,
    (C1_call_step_spec rng0 (by decide) (by decide) (by decide)).2.1⟩

/-- C3: for a seed in `[0, 2 ^ 64)`, `init(seed)` consists of the state
assignment followed by exactly one discarded `call()`, and the state it
leaves behind is `(((seed + increment) mod 2 ^ 64) * multiplier + increment)
mod 2 ^ 64`; the multiplier and increment are untouched. -/
theorem C3_init_spec (g : RNG) (seed : ℕ) (hseed : seed < 2 ^ 64) :
    g.init seed = (({ g with state := seed + g.increment } : RNG).call).2 ∧
    (g.init seed).state =
      (((seed + g.increment) % 2 ^ 64) * g.multiplier + g.increment) % 2 ^ 64 ∧
    (g.init seed).multiplier = g.multiplier ∧
    (g.init seed).increment = g.increment := by
  refine ⟨rfl, ?_, rfl, rfl⟩
  show RNG.pad_or_truncate ((seed + g.increment) * g.multiplier + g.increment) 64 = _
  rw [pad_or_truncate_mod]
  exact (Nat.ModEq.add_right g.increment
    (Nat.ModEq.mul_right g.multiplier
      (Nat.mod_modEq (seed + g.increment) (2 ^ 64)))).symm

/-- C3 witness: seeding the default generator with `5`. -/
theorem C3_witness :
    (5 : ℕ) < 2 ^ 64 ∧
    (rng0.init 5).state =
      (((5 + rng0.increment) % 2 ^ 64) * rng0.multiplier + rng0.increment) % 2 ^ 64 :=
  ⟨by decide, (C3_init_spec rng0 5 (by decide)).2.1⟩

/-- C4 counterexample: on the default-constructed generator, `randint(0)` and
`rand(0)` do not fail — each returns a value (the raw 32-bit output
`676697322`, respectively that output times `2 ^ -32`) and advances the
state.  A zero bound is falsy in JavaScript, so both calls fall through the
`if (max) ... else if (min)` tests into the no-argument branch; neither
method contains a `throw`, so no `InvalidRange` error exists to be raised. -/
theorem C4_counterexample :
    rng0.randint (some 0) none =
      (some 676697322,
        { state := 1378541983250661254, multiplier := 6364136223846793005,
          increment := 1442695040888963407 }) ∧
    rng0.rand (some 0) none =
      (some ((676697322 : ℚ) / 4294967296),
        { state := 1378541983250661254, multiplier := 6364136223846793005,
          increment := 1442695040888963407 }) := by
  exact ⟨by decide, by rfl⟩

/-- C4 amended: for every generator, `randint` and `rand` called with the
single bound `0` return a value rather than throwing: the zero bound is
falsy, so the call takes the no-bounds branch; `randint(0)` returns the raw
32-bit output and `rand(0)` returns that output times `2 ^ -32`, each
advancing the state by one step. -/
theorem C4_amended_zero_bound (g : RNG) :
    g.randint (some 0) none = (some ((g.call).1 : ℤ), (g.call).2) ∧
    g.rand (some 0) none =
      (some ((((g.call).1 : ℕ) : ℚ) * ((2 : ℚ) ^ (32 : ℕ))⁻¹), (g.call).2) :=
  ⟨rfl, rfl⟩

/-- C5 evidence: the two-bound float range law fails under the IEEE-754
binary64 arithmetic JavaScript actually performs.  With `min = 2 ^ 53` and
`max = 2 ^ 53 + 2` — a valid pair of representable doubles with `min < max`
— the generator `gBig` draws `3418632178 > 2 ^ 31`, and the rounded
evaluation of `call() * 2 ^ -32 * (max - min) + min` returns exactly `max`
(the exact value `2 ^ 53 + 3418632178 / 2 ^ 31` lies between the
consecutive doubles `2 ^ 53` and `2 ^ 53 + 2` and rounds up to the latter):
the result is not below `max`, and it differs from the exact real value the
claim specifies. -/
theorem C5_float_range_violation :
    (2 : ℚ) ^ 53 < (2 : ℚ) ^ 53 + 2 ∧
    gBig.randRounded (some ((2 : ℚ) ^ 53)) (some ((2 : ℚ) ^ 53 + 2)) =
      (some ((2 : ℚ) ^ 53 + 2), (gBig.call).2) ∧
    ¬ ((2 : ℚ) ^ 53 + 2 < (2 : ℚ) ^ 53 + 2) ∧
    ((gBig.call).1 : ℚ) * ((2 : ℚ) ^ (32 : ℕ))⁻¹ *
        (((2 : ℚ) ^ 53 + 2) - (2 : ℚ) ^ 53) + (2 : ℚ) ^ 53 ≠
      (2 : ℚ) ^ 53 + 2 := by
  have hk : (gBig.call).1 = 3418632178 := by decide
  refine ⟨by norm_num, ?_, by norm_num, ?_⟩
  · rw [randRounded_two_bounds gBig ((2 : ℚ) ^ 53) ((2 : ℚ) ^ 53 + 2)
      (by positivity), hk]
    have hd : ((2 : ℚ) ^ 53 + 2) - (2 : ℚ) ^ 53 = 2 := by ring
    rw [hd]
    have h2 : roundDouble (2 : ℚ) = 2 := by
      rw [roundDouble_eval_pos 2 1 4503599627370496 (by norm_num)
        (by push_cast; norm_num) (by push_cast; norm_num) (by norm_num)
        (roundHalfEven_eq_of_lt _ _ (by push_cast; norm_num)
          (by push_cast; norm_num))
        (by push_cast; norm_num)]
      push_cast
      norm_num
    rw [h2]
    have h1 : roundDouble (((3418632178 : ℕ) : ℚ) * ((2 : ℚ) ^ (32 : ℕ))⁻¹) =
        ((3418632178 : ℕ) : ℚ) * ((2 : ℚ) ^ (32 : ℕ))⁻¹ := by
      rw [roundDouble_eval_pos _ (-1) 7169391309357056 (by push_cast; norm_num)
        (by push_cast; norm_num) (by push_cast; norm_num) (by norm_num)
        (roundHalfEven_eq_of_lt _ _ (by push_cast; norm_num)
          (by push_cast; norm_num))
        (by push_cast; norm_num)]
      push_cast
      norm_num
    rw [h1]
    have h3 : roundDouble (((3418632178 : ℕ) : ℚ) * ((2 : ℚ) ^ (32 : ℕ))⁻¹ * 2) =
        ((3418632178 : ℕ) : ℚ) * ((2 : ℚ) ^ (32 : ℕ))⁻¹ * 2 := by
      rw [roundDouble_eval_pos _ 0 7169391309357056 (by push_cast; norm_num)
        (by push_cast; norm_num) (by push_cast; norm_num) (by norm_num)
        (roundHalfEven_eq_of_lt _ _ (by push_cast; norm_num)
          (by push_cast; norm_num))
        (by push_cast; norm_num)]
      push_cast
      norm_num
    rw [h3]
    have h4 : roundDouble (((3418632178 : ℕ) : ℚ) * ((2 : ℚ) ^ (32 : ℕ))⁻¹ * 2 +
          (2 : ℚ) ^ 53) = (2 : ℚ) ^ 53 + 2 := by
      rw [roundDouble_eval_pos _ 53 4503599627370497 (by push_cast; norm_num)
        (by push_cast; norm_num) (by push_cast; norm_num) (by norm_num)
        ((roundHalfEven_eq_of_gt _ 4503599627370496 (by push_cast; norm_num)
          (by push_cast; norm_num)).trans (by norm_num))
        (by push_cast; norm_num)]
      push_cast
      norm_num
    rw [h4]
  · rw [hk]
    push_cast
    norm_num

/-- C10: when an items array is supplied whose length differs from the
probabilities array, `choose` throws `RangeError` at once: the length check
of line 105 precedes the `reduce` and the `rand` draw, so the generator is
returned with its state untouched. -/
theorem C10_choose_length_mismatch {α : Type} (g : RNG) (probs : List ℚ)
    (arr : List α) (h : probs.length ≠ arr.length) :
    g.choose probs (some arr) = (Except.error JsErr.rangeError, g) := by
  simp only [RNG.choose]
  rw [if_pos h]

/-- C10 witness: one probability, zero items. -/
theorem C10_witness :
    [(1 : ℚ)].length ≠ ([] : List ℕ).length ∧
    rng0.choose [(1 : ℚ)] (some ([] : List ℕ)) =
      (Except.error JsErr.rangeError, rng0) :=
  ⟨by decide, C10_choose_length_mismatch rng0 [(1 : ℚ)] [] (by decide)⟩

/-- C2 evidence: `choose` throws for every non-empty probability array.  With
`[1]` and no items, and with `[1, 2, 3]` and a matching items array, the call
reaches line 112, whose first `map` callback reads the undeclared identifier
`p` and raises `ReferenceError`; one `rand` draw has already been consumed,
so the generator comes back advanced by one step. -/
theorem C2_choose_throws_referenceError :
    rng0.choose [(1 : ℚ)] (none : Option (List ℕ)) =
      (Except.error JsErr.referenceError, (rng0.call).2) ∧
    rng0.choose [(1 : ℚ), 2, 3] (some ([10, 20, 30] : List ℕ)) =
      (Except.error JsErr.referenceError, (rng0.call).2) := by
  constructor
  · exact chooseCore_nonempty rng0 1 []
      ((List.range ([(1 : ℚ)].length)).map Sum.inr)
  · show (if ([(1 : ℚ), 2, 3].length ≠ ([10, 20, 30] : List ℕ).length) then
        (Except.error JsErr.rangeError, rng0)
      else rng0.chooseCore [(1 : ℚ), 2, 3] (([10, 20, 30] : List ℕ).map Sum.inl)) = _
    rw [if_neg (by decide)]
    exact chooseCore_nonempty rng0 1 [2, 3] _

/-- C6 evidence: on empty input, `permute` leaves the array empty and draws
nothing, but `randperm` applied to the empty array — or to the number `0` —
returns the one-element array `[undefined]` rather than the empty array,
because the trailing `newArray.push(oldArray.shift())` runs even when the
working array is empty; no draw is consumed in either case (the generator is
returned unchanged). -/
theorem C6_empty_permutation :
    rng0.randpermArr ([] : List ℕ) = ([none], [], rng0) ∧
    rng0.randpermNum 0 = ([none], rng0) ∧
    rng0.permute ([] : List ℕ) = ([], rng0) := by
  refine ⟨rfl, rfl, rfl⟩

/-- Removing one element at an in-range nonnegative index shortens the list
by one. -/
theorem spliceOne_rest_length {α : Type} (l : List α) (k : ℕ)
    (hk : k < l.length) :
    ((spliceOne l (k : ℤ)).2).length = l.length - 1 := by
  simp only [spliceOne, spliceStart]
  rw [if_neg (by omega)]
  simp only [Int.toNat_natCast, List.length_append, List.length_take,
    List.length_drop]
  omega

/-- The two splice loops — the one inside `randperm` and the one inside
`permute` — are the same loop: started from the same generator, source list
and accumulator, they produce the same accumulator, the same remnant and the
same generator (the two loops only name their arrays differently). -/
theorem permuteGo_eq_randpermGo {α : Type} :
    ∀ (fuel : ℕ) (g : RNG) (src : List α) (acc : List (Option α)),
      RNG.permuteGo fuel g src acc =
        ((RNG.randpermGo fuel g src acc).2.1, (RNG.randpermGo fuel g src acc).1,
          (RNG.randpermGo fuel g src acc).2.2)
  | 0, g, src, acc => rfl
  | fuel + 1, g, src, acc => by
    simp only [RNG.permuteGo, RNG.randpermGo]
    by_cases h : src.length > 1
    · rw [if_pos h, if_pos h]
      rcases hr : g.randint (some (src.length : ℤ)) none with ⟨kv, g'⟩
      cases kv with
      | some k =>
          rcases hsp : spliceOne src k with ⟨removed, rest⟩
          simp only [hsp]
          exact permuteGo_eq_randpermGo fuel g' rest (acc ++ [removed])
      | none => rfl
    · rw [if_neg h, if_neg h]

/-- Given at least one element and fuel at least `length - 1`, the splice
loop runs until exactly one element is left in the source list. -/
theorem randpermGo_rest_length {α : Type} :
    ∀ (fuel : ℕ) (g : RNG) (src : List α) (acc : List (Option α)),
      1 ≤ src.length → src.length ≤ fuel + 1 →
      (RNG.randpermGo fuel g src acc).2.1.length = 1
  | 0, g, src, acc, h1, h2 => by
    show src.length = 1
    omega
  | fuel + 1, g, src, acc, h1, h2 => by
    simp only [RNG.randpermGo]
    by_cases h : src.length > 1
    · rw [if_pos h]
      rw [randint_posNat g src.length (by omega)]
      have hk : (g.call).1 % src.length < src.length := Nat.mod_lt _ (by omega)
      have hlen : ((spliceOne src (((g.call).1 % src.length : ℕ) : ℤ)).2).length =
          src.length - 1 :=
        spliceOne_rest_length src ((g.call).1 % src.length) hk
      exact randpermGo_rest_length fuel (g.call).2
        (spliceOne src (((g.call).1 % src.length : ℕ) : ℤ)).2
        (acc ++ [(spliceOne src (((g.call).1 % src.length : ℕ) : ℤ)).1])
        (by omega) (by omega)
    · rw [if_neg h]
      show src.length = 1
      omega

/-- The pop/unshift loop of `permute` moves `oldArray` wholesale onto the
front of `array`, preserving order. -/
theorem unshiftPopLoop_eq {α : Type} :
    ∀ (fuel : ℕ) (arr old : List (Option α)), old.length ≤ fuel →
      unshiftPopLoop fuel arr old = old ++ arr
  | 0, arr, old, h => by
    have hnil : old = [] := List.eq_nil_of_length_eq_zero (Nat.le_zero.mp h)
    subst hnil
    rfl
  | fuel + 1, arr, old, h => by
    by_cases ho : old = []
    · subst ho
      rfl
    · have hpos : old.length > 0 := List.length_pos.mpr ho
      simp only [unshiftPopLoop]
      rw [if_pos hpos, List.getLast?_eq_getLast_of_ne_nil ho]
      show unshiftPopLoop fuel (old.getLast ho :: arr) old.dropLast = old ++ arr
      rw [unshiftPopLoop_eq fuel (old.getLast ho :: arr) old.dropLast
        (by simp only [List.length_dropLast]; omega)]
      conv_rhs => rw [← List.dropLast_append_getLast ho]
      simp [List.append_assoc]

/-- C9: `randperm` does not mutate its input: the value the caller's array
holds after the call — the middle component of `RNG.randpermArr`, which
tracks the one array variable the source ever reads but never writes (the
working copy `[...array]` absorbs every `splice` and the `shift`) — is the
pre-call value, with the same length and the same element at every index. -/
theorem C9_randperm_preserves_input {α : Type} (g : RNG) (a : List α) :
    (g.randpermArr a).2.1 = a ∧
    (g.randpermArr a).2.1.length = a.length ∧
    ∀ i : ℕ, (g.randpermArr a).2.1[i]? = a[i]? :=
  ⟨rfl, rfl, fun _ => rfl⟩

/-- C8 counterexample: on the empty array the two operations disagree —
`permute` leaves the caller's array empty while `randperm` returns the
one-element array `[undefined]` — even though both leave the generator
untouched.  So the claimed equivalence fails for the empty array. -/
theorem C8_counterexample :
    (rng0.permute ([] : List ℕ)).1 = ([] : List (Option ℕ)) ∧
    (rng0.randpermArr ([] : List ℕ)).1 = [none] ∧
    (rng0.permute ([] : List ℕ)).1 ≠ (rng0.randpermArr ([] : List ℕ)).1 := by
  refine ⟨rfl, rfl, by decide⟩

/-- C8 amended: for every non-empty array and any starting generator,
`permute` leaves the caller's array holding exactly the sequence that
`randperm` returns for the same pre-mutation contents, and the two
operations leave the generator in identical final states.  (On the empty
array the final generators still agree, but the contents differ as the
counterexample shows.) -/
theorem C8_shuffle_matches_randperm {α : Type} (g : RNG) (a : List α)
    (h : a ≠ []) :
    (g.permute a).1 = (g.randpermArr a).1 ∧
    (g.permute a).2 = (g.randpermArr a).2.2 := by
  have hlen : 1 ≤ a.length := List.length_pos.mpr h
  rcases hgo : RNG.randpermGo a.length g a ([] : List (Option α))
    with ⟨newArr, rest, g'⟩
  have hrest : rest.length = 1 := by
    have := randpermGo_rest_length a.length g a ([] : List (Option α))
      hlen (by omega)
    rw [hgo] at this
    exact this
  obtain ⟨x, hx⟩ := List.length_eq_one.mp hrest
  have hperm : (g.permute a) =
      (unshiftPopLoop newArr.length (rest.map some) newArr, g') := by
    show (unshiftPopLoop (RNG.permuteGo a.length g a []).2.1.length
      ((RNG.permuteGo a.length g a []).1.map some)
      (RNG.permuteGo a.length g a []).2.1, (RNG.permuteGo a.length g a []).2.2) = _
    rw [permuteGo_eq_randpermGo, hgo]
  have hrp : (g.randpermArr a) = (newArr ++ [rest.head?], a, g') := by
    show ((RNG.randpermGo a.length g a []).1 ++
      [(RNG.randpermGo a.length g a []).2.1.head?], a,
      (RNG.randpermGo a.length g a []).2.2) = _
    rw [hgo]
  rw [hperm, hrp]
  subst hx
  refine ⟨?_, rfl⟩
  show unshiftPopLoop newArr.length ([x].map some) newArr = newArr ++ [[x].head?]
  rw [unshiftPopLoop_eq newArr.length ([x].map some) newArr (le_refl _)]
  rfl

/-- C8 witness: a concrete non-empty array. -/
theorem C8_witness :
    ([1, 2, 3] : List ℕ) ≠ [] ∧
    ((rng0.permute ([1, 2, 3] : List ℕ)).1 =
        (rng0.randpermArr ([1, 2, 3] : List ℕ)).1 ∧
      (rng0.permute ([1, 2, 3] : List ℕ)).2 =
        (rng0.randpermArr ([1, 2, 3] : List ℕ)).2.2) :=
  ⟨by decide, C8_shuffle_matches_randperm rng0 [1, 2, 3] (by decide)⟩
